import Mathlib

/-!
Verification of the NFS-System repository core (manager worker pool,
sync-pair registry, transfer executor, file-server command handlers).

The definitions below are a shallow embedding of the C sources:
  * src/src/thread_pool.c      — bounded job queue, worker loop, sync_single_file
  * src/unnamed/part_002       — sync-info store (registry)
  * src/src/nfs_client_logic.c — LIST / PULL / PUSH handlers

Sockets are modelled by the sequences of byte chunks that recv returns
(an empty chunk stands for recv returning zero or an error) and by the
lists of frames the executor sends.  Sends are assumed delivered, as the
claims under study concern receive-side and state behaviour.  Bytes are
modelled as Lean Char lists; the C null terminator handling of string
functions (strchr, the log message) is made explicit via cstr.
-/

/-- One file-copy job, a value snapshot of the endpoints
(struct sync_job in include/common.h; the intrusive next pointer is
represented by the position in the queue list). -/
structure SyncJob where
  source_host : String
  source_port : Int
  source_dir : String
  target_host : String
  target_port : Int
  target_dir : String
  filename : String
deriving DecidableEq

/-- The job-queue part of thread_pool_t: the chain hanging off
job_queue_head (tail is the last element), the size counter, the
capacity and the shutdown flag.  Threads and mutexes are not state of
the sequential model. -/
structure ThreadPool where
  jobs : List SyncJob
  queue_size : Int
  buffer_size : Int
  shutdown : Bool
deriving DecidableEq

/-- Outcome of enqueue_sync_job: -1 under shutdown (queue untouched),
suspension on the not-full condition, or 0 with the updated queue. -/
inductive EnqueueResult where
  | failed (pool : ThreadPool)
  | blocked
  | ok (pool : ThreadPool)
deriving DecidableEq

/-- enqueue_sync_job from thread_pool.c: under shutdown return -1
without touching the queue; wait while the queue is full; otherwise
append at the tail and bump the size. -/
def enqueue_sync_job (pool : ThreadPool) (job : SyncJob) : EnqueueResult :=
  if pool.shutdown = true then .failed pool
  else if pool.buffer_size ≤ pool.queue_size then .blocked
  else .ok { pool with jobs := pool.jobs ++ [job], queue_size := pool.queue_size + 1 }

/-- Outcome of dequeue_sync_job: suspension on the not-empty condition,
NULL (closed), or a job plus the updated queue. -/
inductive DequeueResult where
  | blocked
  | closed (pool : ThreadPool)
  | ok (job : SyncJob) (pool : ThreadPool)
deriving DecidableEq

/-- dequeue_sync_job from thread_pool.c: wait while empty and not
shutting down; return NULL when shutdown and empty; otherwise unlink
the head and decrement the size (a NULL head with nonzero size also
returns NULL without mutation, matching the guarded pointer walk). -/
def dequeue_sync_job (pool : ThreadPool) : DequeueResult :=
  if pool.queue_size = 0 ∧ pool.shutdown = false then .blocked
  else if pool.shutdown = true ∧ pool.queue_size = 0 then .closed pool
  else
    match pool.jobs with
    | [] => .closed pool
    | j :: rest => .ok j { pool with jobs := rest, queue_size := pool.queue_size - 1 }

/-- signal_shutdown from thread_pool.c: set the flag (the condition
broadcasts wake sleepers; they have no state in the sequential model). -/
def signal_shutdown (pool : ThreadPool) : ThreadPool :=
  { pool with shutdown := true }

/-- Structural invariants of the job queue claimed by the spec:
size within bounds, size equals the length of the linked structure,
and head is null iff tail is null iff size is zero. -/
def poolInv (p : ThreadPool) : Prop :=
  p.queue_size = (p.jobs.length : Int) ∧
  0 ≤ p.queue_size ∧
  p.queue_size ≤ p.buffer_size ∧
  (p.jobs.head? = none ↔ p.jobs.getLast? = none) ∧
  (p.jobs.head? = none ↔ p.queue_size = 0)

/-- Repeated dequeuing: the list of jobs obtained by n successive
dequeue_sync_job calls, stopping at NULL or suspension. -/
def drainFrom : Nat → ThreadPool → List SyncJob
  | 0, _ => []
  | n + 1, p =>
    match dequeue_sync_job p with
    | .ok j p2 => j :: drainFrom n p2
    | _ => []

/-- One registry entry (struct sync_info in include/common.h). -/
structure SyncInfo where
  source_host : String
  source_port : Int
  source_dir : String
  target_host : String
  target_port : Int
  target_dir : String
  active : Bool
  last_sync_time : Int
  error_count : Int
deriving DecidableEq

/-- The registry (sync_info_store_t): the linked list from head plus
the count; the mutex has no state in the sequential model. -/
structure SyncInfoStore where
  head : List SyncInfo
  count : Int
deriving DecidableEq

/-- create_sync_info from the registry source: copies the endpoints and
starts active with a zero error count; now stands for time(NULL). -/
def create_sync_info (sh : String) (sp : Int) (sd th : String) (tpt : Int) (td : String)
    (now : Int) : SyncInfo :=
  { source_host := sh, source_port := sp, source_dir := sd,
    target_host := th, target_port := tpt, target_dir := td,
    active := true, last_sync_time := now, error_count := 0 }

/-- The duplicate test of add_sync_info: source host, port and
directory all equal. -/
def sameSourceKey (cur info : SyncInfo) : Bool :=
  cur.source_host == info.source_host &&
  cur.source_port == info.source_port &&
  cur.source_dir == info.source_dir

/-- add_sync_info from the registry source: walk the list looking for a
matching source key; on a match return 1 leaving the store alone,
otherwise push the entry at the front and bump the count, returning 0. -/
def add_sync_info (store : SyncInfoStore) (info : SyncInfo) : Int × SyncInfoStore :=
  if store.head.any (fun cur => sameSourceKey cur info) then (1, store)
  else (0, { head := info :: store.head, count := store.count + 1 })

/-- The key comparison used by find_sync_info (active is not part of
the key). -/
def keyMatches (cur : SyncInfo) (h : String) (p : Int) (d : String) : Bool :=
  cur.source_host == h && cur.source_port == p && cur.source_dir == d

/-- The list walk of find_sync_info: the first entry whose source key
matches, without removing it. -/
def findInfo : List SyncInfo → String → Int → String → Option SyncInfo
  | [], _, _, _ => none
  | cur :: rest, h, p, d =>
    if keyMatches cur h p d then some cur else findInfo rest h p d

/-- find_sync_info from the registry source. -/
def find_sync_info (store : SyncInfoStore) (h : String) (p : Int) (d : String) :
    Option SyncInfo :=
  findInfo store.head h p d

/-- The pointer write info->active = 0 performed by deactivate_sync_info
through the pointer returned by find_sync_info: clear active on the
first entry whose key matches. -/
def deactivateFirst : List SyncInfo → String → Int → String → List SyncInfo
  | [], _, _, _ => []
  | cur :: rest, h, p, d =>
    if keyMatches cur h p d then { cur with active := false } :: rest
    else cur :: deactivateFirst rest h p d

/-- deactivate_sync_info from the registry source: look the key up; if
absent return 1; otherwise clear active on the found entry and
return 0.  The entry stays in the store either way. -/
def deactivate_sync_info (store : SyncInfoStore) (h : String) (p : Int) (d : String) :
    Int × SyncInfoStore :=
  if (find_sync_info store h p d).isSome then
    (0, { store with head := deactivateFirst store.head h p d })
  else (1, store)

/-- What the worker loop observably does with one dequeued job. -/
structure WorkerStepResult where
  store : SyncInfoStore
  pool : ThreadPool
  freed : Option SyncJob
  failed : Bool
  exited : Bool
deriving DecidableEq

/-- One iteration of worker_thread from thread_pool.c, run against the
manager state.  The worker receives only the pool pointer: it dequeues,
runs sync_single_file (whose verdict the environment supplies through
syncResult), prints, frees the job and loops.  No statement in the
worker or in sync_single_file references the sync-info store, so the
store component passes through unchanged on every path. -/
def worker_step (store : SyncInfoStore) (pool : ThreadPool)
    (syncResult : SyncJob → Int) : WorkerStepResult :=
  match dequeue_sync_job pool with
  | .blocked => { store := store, pool := pool, freed := none, failed := false, exited := false }
  | .closed p => { store := store, pool := p, freed := none, failed := false, exited := true }
  | .ok job p =>
    if syncResult job = 0 then
      { store := store, pool := p, freed := some job, failed := false, exited := false }
    else
      { store := store, pool := p, freed := some job, failed := true, exited := false }

/-- The NUL character, the C string terminator. -/
def nulChar : Char := Char.ofNat 0

/-- The C string view of a received buffer after response[received] was
set to NUL: the bytes before the first embedded NUL. -/
def cstr (s : List Char) : List Char :=
  s.takeWhile (fun c => c != nulChar)

/-- strchr(response, SPACE) as an index: position of the first space in
the C string, none when the string ends first. -/
def strchrIdx : List Char → Option Nat
  | [] => none
  | c :: cs => if c = ' ' then some 0 else (strchrIdx cs).map (· + 1)

/-- The space scan of sync_single_file over the received buffer. -/
def strchrSpace (s : List Char) : Option Nat :=
  strchrIdx (cstr s)

/-- Whitespace as skipped by atol (the isspace set of the C locale). -/
def isSpaceChar (c : Char) : Bool :=
  c == ' ' || c == '\t' || c == '\n' || c == Char.ofNat 11 || c == Char.ofNat 12 || c == '\r'

/-- Numeric value of a digit character. -/
def digitVal (c : Char) : Int :=
  (c.toNat : Int) - 48

/-- The digit-consuming loop of atol: fold digits into the accumulator
and stop at the first non-digit. -/
def parseDigits : List Char → Int → Int
  | [], acc => acc
  | c :: cs, acc => if c.isDigit then parseDigits cs (10 * acc + digitVal c) else acc

/-- atol as used on the PULL reply: skip leading whitespace, consume an
optional sign, then digits; no digits yield 0. -/
def atol (s : List Char) : Int :=
  match s.dropWhile isSpaceChar with
  | [] => 0
  | c :: cs =>
    if c = '-' then -(parseDigits cs 0)
    else if c = '+' then parseDigits cs 0
    else parseDigits (c :: cs) 0

/-- The header parse inside sync_single_file: find the first space in
the received C string, take atol of the buffer as the size, and the
position after the space as the payload offset (header length). -/
def parse_pull_header (response : List Char) : Option (Int × Nat) :=
  match strchrSpace response with
  | none => none
  | some i => some (atol response, i + 1)

/-- A frame sent by the executor on the target connection: the open
frame PUSH path -1 newline, a chunk frame PUSH path k space followed by
the k payload bytes, or the close frame PUSH path 0 newline. -/
inductive PushFrame where
  | openF (path : String)
  | chunk (path : String) (data : List Char)
  | close (path : String)
deriving DecidableEq

/-- The chunk-forwarding loop of sync_single_file: while fewer than
file_size bytes were forwarded, take the next recv result; stop on a
zero-or-error recv (the empty chunk, also when the stream of results is
exhausted); otherwise send the chunk frame and count its bytes. -/
def transferLoop (tp : String) (file_size : Int) :
    List (List Char) → Int → List PushFrame × Int
  | [], total => ([], total)
  | chunkBytes :: rest, total =>
    if total < file_size then
      if chunkBytes.length = 0 then ([], total)
      else
        let r := transferLoop tp file_size rest (total + (chunkBytes.length : Int))
        (PushFrame.chunk tp chunkBytes :: r.1, r.2)
    else ([], total)

/-- Result of one sync_single_file call: the C return value, the frames
sent to the target, the total payload bytes forwarded, and the peer
message of a PULL error log when the parsed size was negative. -/
structure SyncResult where
  ret : Int
  frames : List PushFrame
  total : Int
  pullErrorMsg : Option (List Char)
deriving DecidableEq

/-- sync_single_file from thread_pool.c, from the point where both
connections are up, as a function of the target path and of the
successive recv results on the source connection (the first entry is
the read holding the size header; an empty entry is recv returning zero
or an error).  Sends are assumed delivered.  Faithful to the source:
a failed first read or a missing space returns -1; a negative parsed
size logs the peer message and returns -1 before any PUSH frame; any
payload bytes already in the first read go out as the initial chunk;
the loop runs until file_size bytes were forwarded or a read comes back
empty, after which the close frame is sent and 0 is returned. -/
def sync_single_file (target_path : String) (recvs : List (List Char)) : SyncResult :=
  match recvs with
  | [] => { ret := -1, frames := [], total := 0, pullErrorMsg := none }
  | response :: moreRecvs =>
    if response.length = 0 then { ret := -1, frames := [], total := 0, pullErrorMsg := none }
    else
      match parse_pull_header response with
      | none => { ret := -1, frames := [], total := 0, pullErrorMsg := none }
      | some (file_size, header_len) =>
        if file_size < 0 then
          { ret := -1, frames := [], total := 0,
            pullErrorMsg := some ((cstr response).drop header_len) }
        else
          let firstData := response.drop header_len
          let initFrames : List PushFrame :=
            if header_len < response.length then [PushFrame.chunk target_path firstData] else []
          let initTotal : Int :=
            if header_len < response.length then (firstData.length : Int) else 0
          let lr := transferLoop target_path file_size moreRecvs initTotal
          { ret := 0,
            frames := PushFrame.openF target_path :: (initFrames ++ lr.1 ++ [PushFrame.close target_path]),
            total := lr.2,
            pullErrorMsg := none }

/-- Leading-slash stripping applied by every file-server handler to the
path received over the wire. -/
def stripSlash (p : String) : String :=
  if p.data.head? = some '/' then { data := p.data.drop 1 } else p

/-- handle_pull_command from nfs_client_logic.c as the byte stream it
sends: on an unreadable file the error reply minus-one space message;
otherwise the decimal size, one space, then the raw content. -/
def handle_pull_command (content : Option (List Char)) (errMsg : List Char) : List Char :=
  match content with
  | none => '-' :: '1' :: ' ' :: errMsg
  | some data => (toString data.length).toList ++ ' ' :: data

/-- The file-server state touched by handle_push_command: the retained
descriptor (as the path its writes reach, none when no file is open)
and the served directory tree as an association list from path to
content.  The descriptor lives in a function-level static variable in
the source, so there is exactly one per server process. -/
structure PushState where
  current : Option String
  files : List (String × List Char)
deriving DecidableEq

/-- Association-list lookup of a path in the modelled directory tree. -/
def lookupFile : List (String × List Char) → String → Option (List Char)
  | [], _ => none
  | (q, c) :: rest, p => if q = p then some c else lookupFile rest p

/-- Association-list update of a path in the modelled directory tree. -/
def setFile : List (String × List Char) → String → List Char → List (String × List Char)
  | [], p, c => [(p, c)]
  | (q, d) :: rest, p, c =>
    if q = p then (q, c) :: rest else (q, d) :: setFile rest p c

/-- handle_push_command from nfs_client_logic.c: k equal to -1 closes
any retained descriptor and opens the (slash-stripped) path truncated;
k equal to 0 closes the retained descriptor; positive k appends the k
bytes read from the connection (passed here as data) through the
retained descriptor — the path argument is not consulted on that
branch, exactly as in the source; with no open descriptor the write is
refused and the state is unchanged.  Filesystem calls are assumed to
succeed. -/
def handle_push_command (st : PushState) (file_path : String) (chunk_size : Int)
    (data : List Char) : PushState :=
  let relative_path := stripSlash file_path
  if chunk_size = -1 then
    { current := some relative_path, files := setFile st.files relative_path [] }
  else if chunk_size = 0 then
    { st with current := none }
  else
    match st.current with
    | none => st
    | some p => { st with files := setFile st.files p ((lookupFile st.files p).getD [] ++ data) }

/-- One PUSH command line as parsed by handle_client_connection, with
the payload bytes that follow a positive chunk size. -/
structure PushCmd where
  path : String
  k : Int
  data : List Char
deriving DecidableEq

/-- The PUSH commands of one accepted connection, processed in order by
handle_client_connection. -/
def run_push_session (st : PushState) (cmds : List PushCmd) : PushState :=
  cmds.foldl (fun s c => handle_push_command s c.path c.k c.data) st

/-- Successive connections served by the file-server accept loop.  The
server handles them one after the other in the same process, and the
retained descriptor is a function-level static, so the push state flows
from each connection into the next. -/
def run_connections (st : PushState) (conns : List (List PushCmd)) : PushState :=
  conns.foldl run_push_session st

/-- Delivery of one executor frame to the target file-server: the three
frame shapes invoke handle_push_command with -1, the chunk length, or 0. -/
def applyFrame (st : PushState) (f : PushFrame) : PushState :=
  match f with
  | .openF p => handle_push_command st p (-1) []
  | .chunk p data => handle_push_command st p (data.length : Int) data
  | .close p => handle_push_command st p 0 []

/-- Delivery of a frame sequence to the target file-server. -/
def applyFrames (st : PushState) (fs : List PushFrame) : PushState :=
  fs.foldl applyFrame st

/-- One directory entry as seen by handle_list_command: the d_name
bytes (nonempty in C) and whether stat succeeded reporting a regular
file. -/
structure ListEntry where
  name : List Char
  isReg : Bool
deriving DecidableEq

/-- The readdir loop of handle_list_command: entries whose name does
not start with a dot and which stat reports regular are sent as name
plus newline, in directory order. -/
def listBody : List ListEntry → List Char
  | [] => []
  | e :: rest =>
    (if e.name.head? = some '.' then [] else if e.isReg then e.name ++ ['\n'] else []) ++
    listBody rest

/-- handle_list_command from nfs_client_logic.c as the byte stream it
sends: when opendir fails the function returns at once having sent
nothing; otherwise the filename lines followed by the dot newline
sentinel. -/
def handle_list_command : Option (List ListEntry) → List Char
  | none => []
  | some entries => listBody entries ++ ['.', '\n']

/-- A spec-side decimal numeral reading (used only to state the parse
rule of the PULL header): value of a digit string. -/
def decVal (ds : List Char) : Int :=
  ds.foldl (fun acc c => 10 * acc + digitVal c) 0

/-- A spec-side well-formed signed decimal numeral and its value: an
optional leading minus sign followed by at least one digit. -/
def decNumeral? : List Char → Option Int
  | [] => none
  | c :: ds =>
    if c = '-' then
      if ds ≠ [] ∧ ds.all Char.isDigit then some (-(decVal ds)) else none
    else
      if (c :: ds).all Char.isDigit then some (decVal (c :: ds)) else none

/-- Concrete registry entry used in the concrete-evaluation theorems. -/
def infoA : SyncInfo :=
  create_sync_info "10.0.0.1" 8001 "/src" "10.0.0.2" 8002 "/dst" 0

/-- Concrete registry holding exactly infoA. -/
def storeA : SyncInfoStore := { head := [infoA], count := 1 }

/-- Concrete job for the source pair of infoA, file a.txt. -/
def jobA : SyncJob :=
  { source_host := "10.0.0.1", source_port := 8001, source_dir := "/src",
    target_host := "10.0.0.2", target_port := 8002, target_dir := "/dst",
    filename := "a.txt" }

/-- Concrete sibling job for the same pair, file b.txt. -/
def jobB : SyncJob :=
  { source_host := "10.0.0.1", source_port := 8001, source_dir := "/src",
    target_host := "10.0.0.2", target_port := 8002, target_dir := "/dst",
    filename := "b.txt" }

/-- Concrete pool holding jobA then jobB, capacity five, running. -/
def poolA : ThreadPool :=
  { jobs := [jobA, jobB], queue_size := 2, buffer_size := 5, shutdown := false }

/-- Concrete shut-down pool used by the C3 witness. -/
def poolS : ThreadPool :=
  { jobs := [jobA, jobB], queue_size := 2, buffer_size := 5, shutdown := true }

theorem poolInv_enqueue (p : ThreadPool) (j : SyncJob) (hinv : poolInv p)
    (hlt : p.queue_size < p.buffer_size) :
    poolInv { p with jobs := p.jobs ++ [j], queue_size := p.queue_size + 1 } := by
  obtain ⟨hlen, hpos, hcap, -, -⟩ := hinv
  have hlapp : (p.jobs ++ [j]).length = p.jobs.length + 1 := by simp
  refine ⟨?_, ?_, ?_, ?_, ?_⟩
  · show p.queue_size + 1 = ((p.jobs ++ [j]).length : Int)
    rw [hlapp]
    push_cast
    omega
  · show 0 ≤ p.queue_size + 1
    omega
  · show p.queue_size + 1 ≤ p.buffer_size
    omega
  · show (p.jobs ++ [j]).head? = none ↔ (p.jobs ++ [j]).getLast? = none
    rw [List.head?_eq_none_iff, List.getLast?_eq_none_iff]
  · show (p.jobs ++ [j]).head? = none ↔ p.queue_size + 1 = 0
    rw [List.head?_eq_none_iff, List.append_eq_nil]
    constructor
    · rintro ⟨-, h⟩
      exact absurd h (List.cons_ne_nil j [])
    · intro h
      exact absurd h (by omega)

theorem poolInv_dequeue (p : ThreadPool) (a : SyncJob) (rest : List SyncJob)
    (hinv : poolInv p) (hjobs : p.jobs = a :: rest) :
    poolInv { p with jobs := rest, queue_size := p.queue_size - 1 } := by
  obtain ⟨hlen, hpos, hcap, -, -⟩ := hinv
  rw [hjobs] at hlen
  simp only [List.length_cons] at hlen
  refine ⟨?_, ?_, ?_, ?_, ?_⟩
  · show p.queue_size - 1 = (rest.length : Int)
    omega
  · show 0 ≤ p.queue_size - 1
    omega
  · show p.queue_size - 1 ≤ p.buffer_size
    omega
  · show rest.head? = none ↔ rest.getLast? = none
    rw [List.head?_eq_none_iff, List.getLast?_eq_none_iff]
  · show rest.head? = none ↔ p.queue_size - 1 = 0
    rw [List.head?_eq_none_iff]
    constructor
    · intro h
      subst h
      simp only [List.length_nil] at hlen
      omega
    · intro h
      have hz : rest.length = 0 := by omega
      exact List.length_eq_zero.mp hz

theorem drain_of_shutdown (l : List SyncJob) :
    ∀ p : ThreadPool, p.shutdown = true → p.jobs = l →
      p.queue_size = (l.length : Int) → drainFrom l.length p = l := by
  induction l with
  | nil => intro p _ _ _; rfl
  | cons j rest ih =>
    intro p hsd hjobs hsize
    simp only [List.length_cons] at hsize
    have hne : ¬ (p.queue_size = 0 ∧ p.shutdown = false) := by
      rintro ⟨h0, hf⟩
      rw [hsd] at hf
      exact Bool.noConfusion hf
    have hne2 : ¬ (p.shutdown = true ∧ p.queue_size = 0) := by
      rintro ⟨-, h0⟩
      omega
    have hdq : dequeue_sync_job p =
        .ok j { p with jobs := rest, queue_size := p.queue_size - 1 } := by
      rw [dequeue_sync_job, if_neg hne, if_neg hne2, hjobs]
    show drainFrom (rest.length + 1) p = j :: rest
    simp only [drainFrom, hdq]
    congr 1
    refine ih { p with jobs := rest, queue_size := p.queue_size - 1 } hsd rfl ?_
    show p.queue_size - 1 = (rest.length : Int)
    omega

/-- C3: after the shutdown flag is set, enqueue_sync_job fails with the
queue untouched, dequeue_sync_job returns NULL exactly when the queue
is empty, and repeated dequeuing drains the remaining jobs in FIFO
order. -/
theorem C3_shutdown_queue_behaviour (p : ThreadPool) (j : SyncJob)
    (hinv : poolInv p) (hsd : p.shutdown = true) :
    enqueue_sync_job p j = .failed p ∧
    (dequeue_sync_job p = .closed p ↔ p.queue_size = 0) ∧
    drainFrom p.jobs.length p = p.jobs := by
  obtain ⟨hlen, hpos, hcap, hht, hhs⟩ := hinv
  refine ⟨by rw [enqueue_sync_job, if_pos hsd], ?_, ?_⟩
  · constructor
    · intro hcl
      by_contra h0
      have hne : ¬ (p.queue_size = 0 ∧ p.shutdown = false) := by
        rintro ⟨hz, -⟩; exact h0 hz
      have hne2 : ¬ (p.shutdown = true ∧ p.queue_size = 0) := by
        rintro ⟨-, hz⟩; exact h0 hz
      rw [dequeue_sync_job, if_neg hne, if_neg hne2] at hcl
      have hjne : p.jobs ≠ [] := by
        intro hnil
        exact h0 (hhs.mp (by rw [hnil]; rfl))
      obtain ⟨a, rest, hcons⟩ := List.exists_cons_of_ne_nil hjne
      rw [hcons] at hcl
      exact DequeueResult.noConfusion hcl
    · intro h0
      have hne : ¬ (p.queue_size = 0 ∧ p.shutdown = false) := by
        rintro ⟨-, hf⟩
        rw [hsd] at hf
        exact Bool.noConfusion hf
      rw [dequeue_sync_job, if_neg hne, if_pos ⟨hsd, h0⟩]
  · exact drain_of_shutdown p.jobs p hsd rfl (by rw [hlen])

/-- C3 witness: a concrete shut-down pool with two queued jobs; enqueue
fails leaving it unchanged and draining returns the two jobs in order. -/
theorem C3_witness :
    poolInv poolS ∧
    enqueue_sync_job poolS jobA = .failed poolS ∧
    drainFrom poolS.jobs.length poolS = poolS.jobs :=
  ⟨by unfold poolInv; decide,
   (C3_shutdown_queue_behaviour poolS jobA (by unfold poolInv; decide) rfl).1,
   (C3_shutdown_queue_behaviour poolS jobA (by unfold poolInv; decide) rfl).2.2⟩

/-- C4: every queue operation preserves the structural invariants:
size within zero and capacity, size equal to the length of the linked
structure, head null iff tail null iff size zero. -/
theorem C4_queue_invariants_preserved (p : ThreadPool) (j : SyncJob) (hinv : poolInv p) :
    (∀ p2, enqueue_sync_job p j = .ok p2 → poolInv p2) ∧
    (∀ jb p2, dequeue_sync_job p = .ok jb p2 → poolInv p2) ∧
    poolInv (signal_shutdown p) := by
  refine ⟨?_, ?_, ?_⟩
  · intro p2 hok
    rw [enqueue_sync_job] at hok
    by_cases hsd : p.shutdown = true
    · rw [if_pos hsd] at hok
      exact EnqueueResult.noConfusion hok
    · rw [if_neg hsd] at hok
      by_cases hfull : p.buffer_size ≤ p.queue_size
      · rw [if_pos hfull] at hok
        exact EnqueueResult.noConfusion hok
      · rw [if_neg hfull] at hok
        injection hok with hok
        subst hok
        exact poolInv_enqueue p j hinv (by omega)
  · intro jb p2 hok
    rw [dequeue_sync_job] at hok
    by_cases h1 : p.queue_size = 0 ∧ p.shutdown = false
    · rw [if_pos h1] at hok
      exact DequeueResult.noConfusion hok
    · rw [if_neg h1] at hok
      by_cases h2 : p.shutdown = true ∧ p.queue_size = 0
      · rw [if_pos h2] at hok
        exact DequeueResult.noConfusion hok
      · rw [if_neg h2] at hok
        cases hjobs : p.jobs with
        | nil =>
          rw [hjobs] at hok
          exact DequeueResult.noConfusion hok
        | cons a rest =>
          rw [hjobs] at hok
          injection hok with h3 h4
          subst h4
          exact poolInv_dequeue p a rest hinv hjobs
  · exact hinv

/-- C4 witness: the invariants hold of a concrete running pool and are
kept by signal_shutdown on it. -/
theorem C4_witness :
    poolInv poolA ∧ poolInv (signal_shutdown poolA) :=
  ⟨by unfold poolInv; decide,
   (C4_queue_invariants_preserved poolA jobA (by unfold poolInv; decide)).2.2⟩

/-- C1: evaluation of sync_single_file at the failing input of the
short-read claim: the PULL header parses to size 5, the first read
carries two payload bytes, and the source then yields no more bytes.
The source code breaks out of the transfer loop, still sends the close
frame, and returns 0 (success) with only 2 of the 5 payload bytes
forwarded, where the specified behaviour is to return failure. -/
theorem C1_short_read_returns_success :
    parse_pull_header ['5', ' ', 'a', 'b'] = some (5, 2) ∧
    sync_single_file "dst/a.txt" [['5', ' ', 'a', 'b']] =
      { ret := 0,
        frames := [PushFrame.openF "dst/a.txt", PushFrame.chunk "dst/a.txt" ['a', 'b'],
                   PushFrame.close "dst/a.txt"],
        total := 2,
        pullErrorMsg := none } ∧
    (2 : Int) ≠ 5 := by
  refine ⟨rfl, rfl, by decide⟩

/-- C2: evaluation of a worker iteration at a failing job: the registry
holds the matching pair with error_count 0 and the pool holds the job
plus a sibling; the transfer fails; afterwards the registry is
unchanged — the pair still has error_count 0, not 1, because no code
path increments it — while the job is freed without retry and the
sibling stays queued untouched. -/
theorem C2_failed_job_leaves_error_count :
    worker_step storeA poolA (fun _ => -1) =
      { store := storeA,
        pool := { jobs := [jobB], queue_size := 1, buffer_size := 5, shutdown := false },
        freed := some jobA, failed := true, exited := false } ∧
    (find_sync_info storeA "10.0.0.1" 8001 "/src").map (fun i => i.error_count) = some 0 ∧
    (worker_step storeA poolA (fun _ => -1)).store = storeA := by
  refine ⟨by decide, by decide, by decide⟩

/-- C10: when opendir fails handle_list_command sends nothing at all —
no filename line and no sentinel — while every successful LIST reply
ends with the dot newline sentinel. -/
theorem C10_list_failure_sends_nothing :
    handle_list_command none = [] ∧
    ∀ entries : List ListEntry,
      ∃ body, handle_list_command (some entries) = body ++ ['.', '\n'] :=
  ⟨rfl, fun entries => ⟨listBody entries, rfl⟩⟩

theorem findInfo_deactivateFirst (h : String) (p : Int) (d : String) (l : List SyncInfo) :
    findInfo (deactivateFirst l h p d) h p d =
      (findInfo l h p d).map (fun cur => { cur with active := false }) := by
  induction l with
  | nil => rfl
  | cons cur rest ih =>
    by_cases hk : keyMatches cur h p d = true
    · simp only [deactivateFirst, findInfo, if_pos hk]
      rw [if_pos (show keyMatches { cur with active := false } h p d = true from hk)]
      rfl
    · simp only [deactivateFirst, findInfo, if_neg hk]
      exact ih

theorem deactivateFirst_idem (h : String) (p : Int) (d : String) (l : List SyncInfo) :
    deactivateFirst (deactivateFirst l h p d) h p d = deactivateFirst l h p d := by
  induction l with
  | nil => rfl
  | cons cur rest ih =>
    by_cases hk : keyMatches cur h p d = true
    · simp only [deactivateFirst, if_pos hk]
      rw [if_pos (show keyMatches { cur with active := false } h p d = true from hk)]
    · simp only [deactivateFirst, if_neg hk]
      rw [ih]

/-- C6 counterexample: in a registry holding the pair, the second
deactivate call with the same key returns 0 (success) again, not the
not-found status 1 claimed. -/
theorem C6_counterexample :
    (deactivate_sync_info (deactivate_sync_info storeA "10.0.0.1" 8001 "/src").2
        "10.0.0.1" 8001 "/src").1 = 0 ∧
    ¬ (deactivate_sync_info (deactivate_sync_info storeA "10.0.0.1" 8001 "/src").2
        "10.0.0.1" 8001 "/src").1 = 1 := by
  refine ⟨by decide, by decide⟩

/-- C6 amended: while the key is present in the store, deactivate
returns 0 every time and further calls change nothing (active stays
false); the not-found status 1 arises only when the key is absent. -/
theorem C6_repeat_deactivate (store : SyncInfoStore) (h : String) (p : Int) (d : String)
    (hfound : (find_sync_info store h p d).isSome = true) :
    (deactivate_sync_info store h p d).1 = 0 ∧
    deactivate_sync_info (deactivate_sync_info store h p d).2 h p d =
      (0, (deactivate_sync_info store h p d).2) := by
  obtain ⟨cur, hcur⟩ := Option.isSome_iff_exists.mp hfound
  have hstep : deactivate_sync_info store h p d =
      (0, { store with head := deactivateFirst store.head h p d }) := by
    unfold deactivate_sync_info
    rw [if_pos hfound]
  refine ⟨by rw [hstep], ?_⟩
  rw [hstep]
  have h2 : (find_sync_info { store with head := deactivateFirst store.head h p d }
      h p d).isSome = true := by
    show (findInfo (deactivateFirst store.head h p d) h p d).isSome = true
    rw [findInfo_deactivateFirst]
    rw [show findInfo store.head h p d = some cur from hcur]
    rfl
  unfold deactivate_sync_info
  rw [if_pos h2]
  show (0, ({ store with head := deactivateFirst (deactivateFirst store.head h p d) h p d } :
      SyncInfoStore)) = _
  rw [deactivateFirst_idem]

/-- C6 witness: the amended behaviour at the concrete one-entry store. -/
theorem C6_witness :
    (find_sync_info storeA "10.0.0.1" 8001 "/src").isSome = true ∧
    (deactivate_sync_info storeA "10.0.0.1" 8001 "/src").1 = 0 ∧
    deactivate_sync_info (deactivate_sync_info storeA "10.0.0.1" 8001 "/src").2
        "10.0.0.1" 8001 "/src" =
      (0, (deactivate_sync_info storeA "10.0.0.1" 8001 "/src").2) :=
  ⟨by decide,
   (C6_repeat_deactivate storeA "10.0.0.1" 8001 "/src" (by decide)).1,
   (C6_repeat_deactivate storeA "10.0.0.1" 8001 "/src" (by decide)).2⟩

/-- C7 counterexample: the server process starts empty; connection A
sends only the open frame for f.txt and disconnects; connection B then
sends an append of three bytes for g.txt.  Because the retained
descriptor is a function-level static shared by the whole process, the
bytes of connection B land in the file f.txt opened by connection A,
and g.txt is never created — the transitions of one connection act on
the descriptor retained from the other. -/
theorem C7_counterexample :
    lookupFile (run_connections { current := none, files := [] }
        [[{ path := "f.txt", k := -1, data := [] }],
         [{ path := "g.txt", k := 3, data := ['a', 'b', 'c'] }]]).files "f.txt" =
      some ['a', 'b', 'c'] ∧
    lookupFile (run_connections { current := none, files := [] }
        [[{ path := "f.txt", k := -1, data := [] }],
         [{ path := "g.txt", k := 3, data := ['a', 'b', 'c'] }]]).files "g.txt" =
      none := by
  refine ⟨by decide, by decide⟩

/-- C7 amended: the retained descriptor is process-global, not
per-connection: whatever path it currently designates — regardless of
which connection opened it — a positive-size PUSH from any connection
appends its bytes to that path, ignoring the path named in the frame. -/
theorem C7_retained_descriptor_shared (st : PushState) (path : String) (k : Int)
    (data : List Char) (p : String) (hk : 0 < k) (hcur : st.current = some p) :
    (handle_push_command st path k data).current = some p ∧
    (handle_push_command st path k data).files =
      setFile st.files p ((lookupFile st.files p).getD [] ++ data) := by
  unfold handle_push_command
  rw [if_neg (by omega : ¬ k = -1), if_neg (by omega : ¬ k = 0), hcur]
  exact ⟨rfl, rfl⟩

/-- C7 witness: the shared-descriptor behaviour at the concrete state
in which f.txt is the retained file and the frame names g.txt. -/
theorem C7_witness :
    (0 : Int) < 3 ∧
    ({ current := some "f.txt", files := [("f.txt", [])] } : PushState).current =
      some "f.txt" ∧
    (handle_push_command { current := some "f.txt", files := [("f.txt", [])] }
        "g.txt" 3 ['a', 'b', 'c']).files =
      setFile [("f.txt", [])] "f.txt"
        ((lookupFile [("f.txt", [])] "f.txt").getD [] ++ ['a', 'b', 'c']) :=
  ⟨by decide, rfl,
   (C7_retained_descriptor_shared { current := some "f.txt", files := [("f.txt", [])] }
     "g.txt" 3 ['a', 'b', 'c'] "f.txt" (by decide) rfl).2⟩

/-- C8: add_sync_info is idempotent on the source key: once an add has
succeeded with status 0, a second add whose source key is identical
returns the duplicate status 1 and leaves the store — in particular
its count — exactly as it was. -/
theorem C8_add_duplicate_key (store : SyncInfoStore) (info info2 : SyncInfo)
    (hkey : sameSourceKey info info2 = true)
    (h0 : (add_sync_info store info).1 = 0) :
    add_sync_info (add_sync_info store info).2 info2 = (1, (add_sync_info store info).2) := by
  have hstep : add_sync_info store info =
      (0, { head := info :: store.head, count := store.count + 1 }) := by
    unfold add_sync_info at h0 ⊢
    by_cases hany : store.head.any (fun cur => sameSourceKey cur info) = true
    · rw [if_pos hany] at h0
      simp at h0
    · rw [if_neg hany]
  rw [hstep]
  unfold add_sync_info
  rw [if_pos (show (((0, ({ head := info :: store.head, count := store.count + 1 } :
      SyncInfoStore)) : Int × SyncInfoStore).2).head.any
        (fun cur => sameSourceKey cur info2) = true from by
    simp only [List.any_cons, hkey, Bool.true_or])]

/-- C8 witness: from the empty store, add infoA then add an entry with
the same source key but a different target: the second returns 1 and
the count stays 1. -/
theorem C8_witness :
    sameSourceKey infoA { infoA with target_port := 9999 } = true ∧
    (add_sync_info { head := [], count := 0 } infoA).1 = 0 ∧
    add_sync_info (add_sync_info { head := [], count := 0 } infoA).2
        { infoA with target_port := 9999 } =
      (1, (add_sync_info { head := [], count := 0 } infoA).2) ∧
    ((add_sync_info { head := [], count := 0 } infoA).2).count = 1 :=
  ⟨by decide, by decide,
   C8_add_duplicate_key { head := [], count := 0 } infoA { infoA with target_port := 9999 }
     (by decide) (by decide),
   by decide⟩

theorem lookupFile_setFile_self (fs : List (String × List Char)) (p : String)
    (c : List Char) : lookupFile (setFile fs p c) p = some c := by
  induction fs with
  | nil => simp [setFile, lookupFile]
  | cons e rest ih =>
    obtain ⟨q, dd⟩ := e
    by_cases hq : q = p
    · simp only [setFile, lookupFile, if_pos hq]
    · simp only [setFile, lookupFile, if_neg hq]
      exact ih

/-- C9: for a zero-length source file the PULL handler sends exactly
the two bytes zero and space; the executor fed that reply sends exactly
the open frame and the close frame with no chunk frame between them and
returns success; and the target that processes those frames ends with
the file present and empty and no descriptor retained. -/
theorem C9_empty_file (tp : String) (st : PushState) (err : List Char) :
    handle_pull_command (some []) err = ['0', ' '] ∧
    sync_single_file tp [['0', ' ']] =
      { ret := 0, frames := [PushFrame.openF tp, PushFrame.close tp], total := 0,
        pullErrorMsg := none } ∧
    lookupFile (applyFrames st [PushFrame.openF tp, PushFrame.close tp]).files
        (stripSlash tp) = some [] ∧
    (applyFrames st [PushFrame.openF tp, PushFrame.close tp]).current = none := by
  refine ⟨rfl, rfl, ?_, rfl⟩
  show lookupFile (setFile st.files (stripSlash tp) []) (stripSlash tp) = some []
  exact lookupFile_setFile_self st.files (stripSlash tp) []

theorem dropWhile_not_space (c : Char) (l : List Char) (hc : isSpaceChar c = false) :
    (c :: l).dropWhile isSpaceChar = c :: l := by
  simp [List.dropWhile_cons, hc]

theorem space_char_not_digit (c : Char) (h : isSpaceChar c = true) : c.isDigit = false := by
  simp only [isSpaceChar, Bool.or_eq_true, beq_iff_eq] at h
  rcases h with ((((h | h) | h) | h) | h) | h <;> subst h <;> decide

theorem isDigit_not_space (c : Char) (h : c.isDigit = true) : isSpaceChar c = false := by
  cases hs : isSpaceChar c
  · rfl
  · rw [space_char_not_digit c hs] at h
    exact Bool.noConfusion h

theorem digit_ne_space (c : Char) (h : c.isDigit = true) : ¬ c = ' ' := by
  intro he
  subst he
  exact absurd h (by decide)

theorem digit_ne_nul (c : Char) (h : c.isDigit = true) : ¬ c = nulChar := by
  intro he
  subst he
  exact absurd h (by decide)

theorem parseDigits_digits_append (t : List Char) (c : Char) (hc : c.isDigit = false) :
    ∀ (ds : List Char) (acc : Int), ds.all Char.isDigit = true →
      parseDigits (ds ++ c :: t) acc = ds.foldl (fun a ch => 10 * a + digitVal ch) acc := by
  intro ds
  induction ds with
  | nil =>
    intro acc _
    simp [parseDigits, hc]
  | cons d ds2 ih =>
    intro acc hall
    simp only [List.all_cons, Bool.and_eq_true] at hall
    obtain ⟨hd, hrest⟩ := hall
    simp only [List.cons_append, parseDigits, List.foldl_cons]
    rw [if_pos hd]
    exact ih _ hrest

theorem atol_numeral (num rest : List Char) (n : Int) (hnum : decNumeral? num = some n) :
    atol (num ++ ' ' :: rest) = n := by
  cases num with
  | nil => simp [decNumeral?] at hnum
  | cons c ds =>
    by_cases hc : c = '-'
    · subst hc
      simp only [decNumeral?, if_pos rfl] at hnum
      by_cases hcond : ds ≠ [] ∧ ds.all Char.isDigit = true
      · rw [if_pos hcond] at hnum
        injection hnum with hn
        unfold atol
        rw [show (('-' :: ds) ++ ' ' :: rest).dropWhile isSpaceChar =
            '-' :: (ds ++ ' ' :: rest) from dropWhile_not_space '-' _ (by decide)]
        show (if ('-' : Char) = '-' then -(parseDigits (ds ++ ' ' :: rest) 0)
              else if ('-' : Char) = '+' then parseDigits (ds ++ ' ' :: rest) 0
              else parseDigits ('-' :: (ds ++ ' ' :: rest)) 0) = n
        rw [if_pos rfl, parseDigits_digits_append rest ' ' (by decide) ds 0 hcond.2]
        exact hn
      · rw [if_neg hcond] at hnum
        exact Option.noConfusion hnum
    · simp only [decNumeral?, if_neg hc] at hnum
      by_cases hall : (c :: ds).all Char.isDigit = true
      · rw [if_pos hall] at hnum
        injection hnum with hn
        have hcd : c.isDigit = true := by
          simp only [List.all_cons, Bool.and_eq_true] at hall
          exact hall.1
        have hplus : ¬ c = '+' := by
          intro he
          subst he
          exact absurd hcd (by decide)
        unfold atol
        rw [show ((c :: ds) ++ ' ' :: rest).dropWhile isSpaceChar =
            c :: (ds ++ ' ' :: rest) from dropWhile_not_space c _ (isDigit_not_space c hcd)]
        show (if c = '-' then -(parseDigits (ds ++ ' ' :: rest) 0)
              else if c = '+' then parseDigits (ds ++ ' ' :: rest) 0
              else parseDigits (c :: (ds ++ ' ' :: rest)) 0) = n
        rw [if_neg hc, if_neg hplus,
          show c :: (ds ++ ' ' :: rest) = (c :: ds) ++ ' ' :: rest from rfl,
          parseDigits_digits_append rest ' ' (by decide) (c :: ds) 0 hall]
        exact hn
      · rw [if_neg hall] at hnum
        exact Option.noConfusion hnum

theorem strchrIdx_append (suf : List Char) :
    ∀ pre : List Char, (∀ c ∈ pre, ¬ c = ' ') →
      strchrIdx (pre ++ ' ' :: suf) = some pre.length := by
  intro pre
  induction pre with
  | nil =>
    intro _
    simp [strchrIdx]
  | cons c cs ih =>
    intro hmem
    have hcne : ¬ c = ' ' := hmem c (List.mem_cons_self c cs)
    simp only [List.cons_append, strchrIdx, if_neg hcne, List.append_eq]
    rw [ih (fun x hx => hmem x (List.mem_cons_of_mem c hx))]
    rfl

theorem cstr_append (suf : List Char) :
    ∀ pre : List Char, (∀ c ∈ pre, ¬ c = nulChar) →
      cstr (pre ++ ' ' :: suf) = pre ++ ' ' :: cstr suf := by
  intro pre
  induction pre with
  | nil =>
    intro _
    simp only [List.nil_append]
    show (' ' :: suf).takeWhile (fun c => c != nulChar) =
      ' ' :: suf.takeWhile (fun c => c != nulChar)
    rw [List.takeWhile_cons_of_pos (by decide)]
  | cons c cs ih =>
    intro hmem
    have hcne : (c != nulChar) = true :=
      bne_iff_ne.mpr (hmem c (List.mem_cons_self c cs))
    simp only [List.cons_append]
    show ((c :: (cs ++ ' ' :: suf)).takeWhile fun ch => ch != nulChar) =
      c :: (cs ++ ' ' :: cstr suf)
    simp only [List.takeWhile_cons, hcne, if_true]
    have := ih (fun x hx => hmem x (List.mem_cons_of_mem c hx))
    rw [show ((cs ++ ' ' :: suf).takeWhile fun ch => ch != nulChar) =
        cstr (cs ++ ' ' :: suf) from rfl, this]

theorem drop_len_append {α : Type} (a : α) (suf : List α) :
    ∀ pre : List α, (pre ++ a :: suf).drop (pre.length + 1) = suf := by
  intro pre
  induction pre with
  | nil => rfl
  | cons c cs ih =>
    simp only [List.cons_append, List.length_cons, List.drop_succ_cons]
    exact ih

theorem decNumeral_no_space_nul (num : List Char) (n : Int)
    (hnum : decNumeral? num = some n) :
    (∀ c ∈ num, ¬ c = ' ') ∧ (∀ c ∈ num, ¬ c = nulChar) := by
  cases num with
  | nil => simp [decNumeral?] at hnum
  | cons c ds =>
    by_cases hc : c = '-'
    · subst hc
      simp only [decNumeral?, if_pos rfl] at hnum
      by_cases hcond : ds ≠ [] ∧ ds.all Char.isDigit = true
      · obtain ⟨-, hall⟩ := hcond
        rw [List.all_eq_true] at hall
        constructor <;> intro x hx <;> rcases List.mem_cons.mp hx with h1 | h1
        · subst h1; decide
        · exact digit_ne_space x (hall x h1)
        · subst h1; decide
        · exact digit_ne_nul x (hall x h1)
      · rw [if_neg hcond] at hnum
        exact Option.noConfusion hnum
    · simp only [decNumeral?, if_neg hc] at hnum
      by_cases hall : (c :: ds).all Char.isDigit = true
      · rw [List.all_eq_true] at hall
        constructor <;> intro x hx
        · exact digit_ne_space x (hall x hx)
        · exact digit_ne_nul x (hall x hx)
      · rw [if_neg hall] at hnum
        exact Option.noConfusion hnum

/-- C5: the PULL reply parse rule of sync_single_file: with a
well-formed signed decimal numeral before the first space,
parse_pull_header yields exactly the numeral value as the size and
places the payload immediately after the space; a negative parsed size
makes sync_single_file return -1 logging the peer message that follows
the space, with no PUSH frame sent; a non-negative size makes the
bytes after the space in the first read go out as the initial chunk
frame directly after the open frame. -/
theorem C5_pull_reply_parse (tp : String) (num rest : List Char) (n : Int)
    (moreRecvs : List (List Char)) (hnum : decNumeral? num = some n) :
    parse_pull_header (num ++ ' ' :: rest) = some (n, num.length + 1) ∧
    (n < 0 →
      sync_single_file tp ((num ++ ' ' :: rest) :: moreRecvs) =
        { ret := -1, frames := [], total := 0, pullErrorMsg := some (cstr rest) }) ∧
    (0 ≤ n → rest ≠ [] →
      (sync_single_file tp ((num ++ ' ' :: rest) :: moreRecvs)).frames.take 2 =
        [PushFrame.openF tp, PushFrame.chunk tp rest]) := by
  obtain ⟨hsp, hnl⟩ := decNumeral_no_space_nul num n hnum
  have hcstr : cstr (num ++ ' ' :: rest) = num ++ ' ' :: cstr rest := cstr_append rest num hnl
  have hidx : strchrSpace (num ++ ' ' :: rest) = some num.length := by
    rw [strchrSpace, hcstr]
    exact strchrIdx_append (cstr rest) num hsp
  have hatol : atol (num ++ ' ' :: rest) = n := atol_numeral num rest n hnum
  have hparse : parse_pull_header (num ++ ' ' :: rest) = some (n, num.length + 1) := by
    unfold parse_pull_header
    rw [hidx, hatol]
  have hlen0 : ¬ (num ++ ' ' :: rest).length = 0 := by simp
  refine ⟨hparse, ?_, ?_⟩
  · intro hneg
    simp only [sync_single_file]
    rw [if_neg hlen0]
    simp only [hparse]
    rw [if_pos hneg, hcstr, drop_len_append ' ' (cstr rest) num]
  · intro hpos hrest
    have hlt : num.length + 1 < (num ++ ' ' :: rest).length := by
      simp only [List.length_append, List.length_cons]
      have : 0 < rest.length := List.length_pos.mpr hrest
      omega
    simp only [sync_single_file]
    rw [if_neg hlen0]
    simp only [hparse]
    rw [if_neg (show ¬ n < 0 by omega), if_pos hlt, drop_len_append ' ' rest num]
    simp [List.take_succ_cons]

/-- C5 witness: a concrete error reply minus one space message. -/
theorem C5_witness :
    decNumeral? ['-', '1'] = some (-1) ∧
    parse_pull_header (['-', '1'] ++ ' ' :: ['n', 'o']) = some (-1, 3) ∧
    sync_single_file "dst/b.txt" ((['-', '1'] ++ ' ' :: ['n', 'o']) :: []) =
      { ret := -1, frames := [], total := 0, pullErrorMsg := some (cstr ['n', 'o']) } :=
  ⟨by decide,
   (C5_pull_reply_parse "dst/b.txt" ['-', '1'] ['n', 'o'] (-1) [] (by decide)).1,
   (C5_pull_reply_parse "dst/b.txt" ['-', '1'] ['n', 'o'] (-1) [] (by decide)).2.1
     (by decide)⟩
